import Mathlib

/-!
Verification of the `TeamScraper` class of `baseball_scraper/baseball_reference.py`.

The Python code is shallowly embedded as follows.

* A BeautifulSoup page is a `Page`: a list of `Table`s, each carrying the `th` texts of
  its first `tr` (the header row) and the `td` texts of each `tbody` row.
* A pandas `DataFrame` is a `Frame`: a list of column labels (labels may be `NaN`, hence
  `Option String`) and a list of rows of `Value`s.
* A scalar cell is a `Value`: `na` models `NaN`/`None`, `str` a Python string, `num` a
  Python numeric scalar (int or float) identified by its exact rational value — every
  number produced by this program is a small integer, exactly representable in float64 —
  `date` a `datetime` (time-of-day is always midnight here and is omitted), and `tag` a
  raw BeautifulSoup element that was inserted into the table unconverted (identified by
  its text).
* Python exceptions become `Except Err`.  `Err.invalidRequest` stands for the
  `RuntimeError`s of `_validate_date_range` (the spec's `InvalidRequestError`) and
  `Err.dataNotFound` for the `ValueError` of `_get_table` (the spec's
  `DataNotFoundError`).
* The network fetch is an oracle `fetch : String → Int → Page`; `scrape` returns,
  besides its result and the post-call object state, the number of fetch calls made.
-/

deriving instance DecidableEq for Except

namespace BaseballScraper

/-- Python exceptions raised by the scraper and by the pandas/stdlib calls it makes. -/
inductive Err where
  | invalidRequest (msg : String)
  | dataNotFound (msg : String)
  | indexError
  | keyError (key : String)
  | valueError (msg : String)
  | typeError
deriving DecidableEq, Repr

/-- A calendar date (`datetime.date` / `pd.Timestamp` at midnight). -/
structure Date where
  year : Int
  month : Nat
  day : Nat
deriving DecidableEq, Repr

/-- Strict `<` on dates, lexicographic on (year, month, day) — the order used by
`pd.Timestamp`/`datetime` comparisons. -/
def Date.blt (a b : Date) : Bool :=
  decide (a.year < b.year) ||
    (a.year == b.year && (decide (a.month < b.month) ||
      (a.month == b.month && decide (a.day < b.day))))

/-- `≤` on dates. -/
def Date.ble (a b : Date) : Bool :=
  Date.blt a b || a == b

/-- A scalar value held in a DataFrame cell (see the file header). -/
inductive Value where
  | na
  | str (s : String)
  | num (q : ℚ)
  | date (d : Date)
  | tag (s : String)
deriving DecidableEq, Repr

/-- Is the cell missing?  (`Series.count` counts the cells for which this is false.) -/
def Value.isNA : Value → Bool
  | .na => true
  | _ => false

/-- A pandas DataFrame: column labels (a label is `none` when it is `NaN`, which happens
when a data row is longer than the heading row) and rows of cells. -/
structure Frame where
  header : List (Option String)
  rows : List (List Value)
deriving DecidableEq, Repr

/-- Every row has exactly one cell per column label.  Frames built by `parse_raw` always
satisfy this; positional cell access below coincides with pandas label alignment on such
frames. -/
def Frame.rect (f : Frame) : Bool :=
  f.rows.all (fun r => r.length == f.header.length)

/-- Index of the first occurrence of label `some name` in a header. -/
def colFind (name : String) : List (Option String) → Option Nat
  | [] => none
  | x :: t => if x == some name then some 0 else (colFind name t).map (· + 1)

/-- Index of the column labelled `name`, if any. -/
def colIdx (f : Frame) (name : String) : Option Nat :=
  colFind name f.header

/-- `data[name]` read access: the column as a list, `KeyError` if absent. -/
def getCol (f : Frame) (name : String) : Except Err (List Value) :=
  match colIdx f name with
  | some i => .ok (f.rows.map (fun r => r.getD i .na))
  | none => .error (.keyError name)

/-- `data[name] = vals` write access: overwrite the column if the label exists,
otherwise append a new column at the right edge. -/
def setColVals (f : Frame) (name : String) (vals : List Value) : Frame :=
  match colIdx f name with
  | some i => { f with rows := List.zipWith (fun r v => r.set i v) f.rows vals }
  | none =>
      { header := f.header ++ [some name],
        rows := List.zipWith (fun r v => r ++ [v]) f.rows vals }

/-- `data.drop(name, 1)`: drop every column labelled `name`; `KeyError` if none is. -/
def dropCol (f : Frame) (name : String) : Except Err Frame :=
  if f.header.contains (some name) then
    .ok { header := f.header.filter (fun x => !(x == some name)),
          rows := f.rows.map (fun r =>
            ((f.header.zip r).filter (fun p => !(p.1 == some name))).map Prod.snd) }
  else .error (.keyError name)

/-- `Except`-valued `mapM` over a list, written out so that it unfolds structurally. -/
def eMapM {α β : Type} (f : α → Except Err β) : List α → Except Err (List β)
  | [] => .ok []
  | a :: l => do
    let b ← f a
    let bs ← eMapM f l
    .ok (b :: bs)

/-! ### String helpers (models of the Python `str` methods used by the scraper) -/

/-- Python `str.strip()`. -/
def pyStrip (s : String) : String :=
  String.mk (((s.data.dropWhile Char.isWhitespace).reverse.dropWhile
    Char.isWhitespace).reverse)

/-- Python `str.upper()` (team codes are plain ASCII). -/
def pyUpper (s : String) : String :=
  String.mk (s.data.map Char.toUpper)

/-- Value of a digit run, most significant first. -/
def digitsToNat (l : List Char) : Nat :=
  l.foldl (fun n c => 10 * n + (c.toNat - 48)) 0

/-- Python `float(s)` on the plain decimal literals that reach it in this program:
optional sign, then digits with an optional fractional part.  `none` models the
`ValueError` raised on anything else (in particular on the empty string). -/
def parseFloat (s : String) : Option ℚ :=
  let l := s.data
  let signed : Int × List Char :=
    match l with
    | '-' :: t => (-1, t)
    | '+' :: t => (1, t)
    | t => (1, t)
  let intDigits := signed.2.takeWhile Char.isDigit
  let rest := signed.2.dropWhile Char.isDigit
  match rest with
  | [] =>
      if intDigits.isEmpty then none
      else some ((signed.1 * (digitsToNat intDigits : Int) : Int) : ℚ)
  | '.' :: frac =>
      if frac.all Char.isDigit && !(intDigits.isEmpty && frac.isEmpty) then
        some (mkRat (signed.1 * ((digitsToNat intDigits * 10 ^ frac.length
          + digitsToNat frac : Nat) : Int)) (10 ^ frac.length))
      else none
  | _ => none

/-- First index at which `pat` occurs as a contiguous sublist, Python `str.find`. -/
def findSub (pat : List Char) : List Char → Option Nat
  | [] => if pat.isPrefixOf ([] : List Char) then some 0 else none
  | s@(_ :: t) =>
      if pat.isPrefixOf s then some 0 else (findSub pat t).map (· + 1)

/-! ### The page model -/

/-- One `table` element: the `th` texts of its first `tr` (the heading row used by
`_parse_raw`), and the `td` texts of each `tbody` row, in order. -/
structure Table where
  headerCells : List String
  bodyRows : List (List String)
deriving DecidableEq, Repr

/-- A parsed page: its `table` elements in document order. -/
structure Page where
  tables : List Table
deriving DecidableEq, Repr

/-- The message of `_get_table`'s `ValueError` (the spec's `DataNotFoundError`). -/
def noDataMsg : String :=
  "Data cannot be retrieved for this team/year combo. Please verify that your team " ++
  "abbreviation is accurate and that the team existed during the season you are " ++
  "searching for."

/-- `_get_table`: the first `table` of the page, `DataNotFoundError` if there is none. -/
def get_table (p : Page) : Except Err Table :=
  match p.tables with
  | [] => .error (.dataNotFound noDataMsg)
  | t :: _ => .ok t

/-! ### `_reformat_col_value` and `_parse_row` -/

/-- The blank-cell defaults of `_reformat_col_value`, as (index, default) pairs in the
order the code tests them: team abbreviation, home/away indicator, pitcher win, pitcher
loss, save, extra-innings count, then the two day/night and time flag cells. -/
def reformatOps (team : String) : List (Nat × String) :=
  [(1, team), (3, "Home"), (12, "None"), (13, "None"), (14, "None"),
   (8, "9"), (16, "Unknown"), (15, "Unknown")]

/-- Run the defaults in order, mutating the cell list in place as the Python code
mutates the `td` elements.  Returns the list as mutated so far together with `true`
when an index was out of range (`IndexError`): the caught exception leaves the earlier
mutations visible, exactly as in Python. -/
def applyOps : List (Nat × String) → List String → List String × Bool
  | [], cols => (cols, false)
  | (i, dflt) :: rest, cols =>
      if h : i < cols.length then
        applyOps rest (if cols.get ⟨i, h⟩ == "" then cols.set i dflt else cols)
      else (cols, true)

/-- `_reformat_col_value` on the `td` texts of one row: the (possibly partially)
defaulted cells, plus the `IndexError` flag. -/
def reformat_col_value (team : String) (cols : List String) : List String × Bool :=
  applyOps (reformatOps team) cols

/-- Result of `_parse_row`: either extracted cell texts, or — when the `IndexError`
recovery left the row untouched because it had at most one cell — the raw
BeautifulSoup elements themselves. -/
inductive RowResult where
  | texts (l : List String)
  | raw (cells : List String)
deriving DecidableEq, Repr

/-- `_parse_row`: default the blanks and strip each cell text; on `IndexError`
(fewer than 17 cells) keep the first five stripped texts when the row has more than
one cell, and otherwise return the raw cells unconverted. -/
def parse_row (team : String) (cells : List String) : RowResult :=
  match reformat_col_value team cells with
  | (cols, false) => .texts (cols.map pyStrip)
  | (cols, true) =>
      if cells.length > 1 then .texts ((cols.map pyStrip).take 5)
      else .raw cols

/-- The row loop of `_parse_raw`: parse each row, and when the result is non-empty
append its truthy cells (empty strings are dropped; raw elements are truthy and are
appended as unconverted `tag` values). -/
def collectRows (team : String) : List (List String) → List (List Value)
  | [] => []
  | r :: rs =>
      let rest := collectRows team rs
      match parse_row team r with
      | .texts l =>
          if l.length > 0 then ((l.filter (fun s => s != "")).map Value.str) :: rest
          else rest
      | .raw cs =>
          if cs.length > 0 then (cs.map Value.tag) :: rest else rest

/-! ### DataFrame assembly -/

/-- The column label a cell of the first data row induces under
`data.rename(columns=data.iloc[0])`: its string, or `NaN` for a padding cell. -/
def valueToName : Value → Option String
  | .str s => some s
  | _ => none

/-- `pd.DataFrame(data)` followed by `rename(columns=data.iloc[0])` and
`reindex(index.drop(0))`: rows are padded with `NaN` to the widest row, the first row
becomes the column labels and is dropped. -/
def mkDataFrame (data : List (List Value)) : Frame :=
  let width := data.foldr (fun r m => max r.length m) 0
  let padded := data.map (fun r => r ++ List.replicate (width - r.length) Value.na)
  match padded with
  | [] => { header := [], rows := [] }
  | h :: t => { header := h.map valueToName, rows := t }

/-! ### `_process_win_streak` -/

/-- `Series.str.len()` on one cell: string length, `NaN` on anything else. -/
def strLenCell : Value → Value
  | .str s => .num s.length
  | _ => .na

/-- `Series.str[0] == '-'` on one cell (`NaN` compares unequal, so `false`). -/
def firstCharIsDash : Value → Bool
  | .str s =>
      match s.data with
      | c :: _ => c == '-'
      | [] => false
  | _ => false

/-- Unary minus on one cell of a numeric-or-`NaN` column. -/
def negValue : Value → Value
  | .num q => .num (-q)
  | _ => .na

/-- Net effect of `_process_win_streak` on one non-missing `Streak` cell: its length,
negated when its first character is `-`. -/
def streakCoerce (v : Value) : Value :=
  if firstCharIsDash v then negValue (strLenCell v) else strLenCell v

/-- `_process_win_streak`: when the `Streak` column has at least one non-missing
entry, build `Streak2 = Streak.str.len()`, negate it where `Streak` starts with `-`,
copy it over `Streak` and drop it; otherwise leave the frame untouched. -/
def process_win_streak (f : Frame) : Except Err Frame := do
  let streak ← getCol f "Streak"
  if (streak.filter (fun v => !v.isNA)).length > 0 then
    let f1 := setColVals f "Streak2" (streak.map strLenCell)
    let f2 := setColVals f1 "Streak2"
      (List.zipWith (fun orig v => if firstCharIsDash orig then negValue v else v)
        streak (streak.map strLenCell))
    let s2 ← getCol f2 "Streak2"
    let f3 := setColVals f2 "Streak" s2
    dropCol f3 "Streak2"
  else
    .ok f

/-! ### `_make_numeric` -/

/-- `Series.str.replace(',', '')` on one cell: commas removed from a string, `NaN` on
anything non-string. -/
def strReplaceComma : Value → Value
  | .str s => .str (String.mk (s.data.filter (fun c => c != ',')))
  | _ => .na

/-- `Series.replace(r'^Unknown$', nan, regex=True)` on one cell: the exact string
`"Unknown"` becomes missing, everything else is unchanged. -/
def replaceUnknown : Value → Value
  | .str s => if s == "Unknown" then .na else .str s
  | v => v

/-- `astype(float)` on one cell: missing stays missing, numbers are kept (their value
is unchanged by the int-to-float conversion), strings are parsed as decimal literals
(`ValueError` otherwise, in particular on `""`), and unconverted elements or dates
raise `TypeError`. -/
def astypeFloatCell : Value → Except Err Value
  | .na => .ok .na
  | .num q => .ok (.num q)
  | .str s =>
      match parseFloat s with
      | some q => .ok (.num q)
      | none => .error (.valueError ("could not convert string to float: " ++ s))
  | .date _ => .error .typeError
  | .tag _ => .error .typeError

/-- Convert the named columns with `astypeFloatCell`, in order. -/
def astypeGo : Frame → List String → Except Err Frame
  | f, [] => .ok f
  | f, n :: ns => do
      let col ← getCol f n
      let col2 ← eMapM astypeFloatCell col
      astypeGo (setColVals f n col2) ns

/-- `data[num_cols] = data[num_cols].astype(float)`: selecting the sub-frame first
raises `KeyError` when any name is absent; then each column is converted. -/
def astypeFloatCols (f : Frame) (names : List String) : Except Err Frame := do
  let _ ← eMapM (fun n => getCol f n) names
  astypeGo f names

/-- `_make_numeric`: strip thousands separators from `Attendance` (or blank the whole
column when it is entirely missing), turn the `"Unknown"` sentinel into missing, then
coerce the numeric columns to float. -/
def make_numeric (f : Frame) : Except Err Frame := do
  let att ← getCol f "Attendance"
  let f1 :=
    if (att.filter (fun v => !v.isNA)).length > 0 then
      setColVals f "Attendance" (att.map strReplaceComma)
    else
      setColVals f "Attendance" (att.map (fun _ => Value.na))
  let att2 ← getCol f1 "Attendance"
  let f2 := setColVals f1 "Attendance" (att2.map replaceUnknown)
  astypeFloatCols f2 ["R", "RA", "Inn", "Rank", "Attendance"]

/-! ### `_process_date` -/

/-- The lowercased full weekday names `%A` matches (`strptime` is case-insensitive). -/
def weekdayNames : List (List Char) :=
  ["monday", "tuesday", "wednesday", "thursday", "friday", "saturday",
   "sunday"].map String.data

/-- The lowercased month abbreviations `%b` matches, in month order. -/
def monthAbbrs : List (List Char) :=
  ["jan", "feb", "mar", "apr", "may", "jun", "jul", "aug", "sep", "oct", "nov",
   "dec"].map String.data

/-- Days in each month of 1900, the default year `strptime` validates against. -/
def daysInMonth1900 : Nat → Nat
  | 1 => 31 | 2 => 28 | 3 => 31 | 4 => 30 | 5 => 31 | 6 => 30
  | 7 => 31 | 8 => 31 | 9 => 30 | 10 => 31 | 11 => 30 | 12 => 31
  | _ => 0

/-- Match one of `names` as a prefix, returning its position and the rest. -/
def matchNameAux : List (List Char) → Nat → List Char → Option (Nat × List Char)
  | [], _, _ => none
  | n :: ns, i, l =>
      if n.isPrefixOf l then some (i, l.drop n.length) else matchNameAux ns (i + 1) l

/-- `datetime.strptime(val, '%A, %b %d')`, reduced to the (month, day) it extracts:
a full weekday name, a comma, whitespace, a month abbreviation, whitespace, and one or
two day digits consuming the whole string, with the day validated against the month
(in the default year 1900).  `none` models the `ValueError`. -/
def strptimeWeekdayMonthDay (val : String) : Option (Nat × Nat) :=
  let l := val.data.map Char.toLower
  match matchNameAux weekdayNames 0 l with
  | none => none
  | some (_, l1) =>
      match l1 with
      | ',' :: l2 =>
          if (l2.takeWhile Char.isWhitespace).isEmpty then none
          else
            let l3 := l2.dropWhile Char.isWhitespace
            match matchNameAux monthAbbrs 0 l3 with
            | none => none
            | some (mi, l4) =>
                if (l4.takeWhile Char.isWhitespace).isEmpty then none
                else
                  let l5 := l4.dropWhile Char.isWhitespace
                  let ds := (l5.takeWhile Char.isDigit).take 2
                  let rest := l5.drop ds.length
                  if ds.isEmpty || !rest.isEmpty then none
                  else
                    let d := digitsToNat ds
                    let m := mi + 1
                    if 1 ≤ d ∧ d ≤ daysInMonth1900 m then some (m, d) else none
      | _ => none

/-- The `" ("` pattern whose first occurrence `_process_date`'s helper cuts at. -/
def spaceParen : List Char := [' ', '(']

/-- `val[0:val.find(" (")]` when `" ("` occurs, else `val` unchanged. -/
def stripParen (s : String) : String :=
  match findSub spaceParen s.data with
  | some i => String.mk (s.data.take i)
  | none => s

/-- The `helper` closure of `_process_date` on one cell: strip a trailing
parenthesized disambiguator, parse `"%A, %b %d"`, and install the season's year.
Missing cells and unconverted elements make the string methods fail (`TypeError`
stands in for the `AttributeError`/`TypeError` Python raises on them). -/
def dateHelper (year : Int) : Value → Except Err Value
  | .str val =>
      match strptimeWeekdayMonthDay (stripParen val) with
      | some (m, d) => .ok (.date { year := year, month := m, day := d })
      | none => .error (.valueError "time data does not match format")
  | _ => .error .typeError

/-- `_process_date`: apply `dateHelper` to every `Date` cell. -/
def process_date (year : Int) (f : Frame) : Except Err Frame := do
  let dates ← getCol f "Date"
  let dates2 ← eMapM (dateHelper year) dates
  .ok (setColVals f "Date" dates2)

/-! ### `_parse_raw`, `_apply_filters`, and `scrape` -/

/-- `_parse_raw`: locate the table, take its headings minus the game-number column,
rename the fourth to `Home_Away` (`IndexError` if there is no fourth), parse all body
rows but the trailing legend row, assemble the DataFrame with the heading row as
column labels, drop the unnamed column, and run the three coercion passes. -/
def parse_raw (team : String) (year : Int) (p : Page) : Except Err Frame := do
  let table ← get_table p
  let headings := table.headerCells.drop 1
  if _h3 : 3 < headings.length then
    let headings := headings.set 3 "Home_Away"
    let body := collectRows team (table.bodyRows.take (table.bodyRows.length - 1))
    let df := mkDataFrame ((headings.map Value.str) :: body)
    let df ← dropCol df ""
    let df ← process_win_streak df
    let df ← make_numeric df
    process_date year df
  else .error .indexError

/-- `df['Date'] >= start` on one cell: dates compare, anything else raises. -/
def cellCmpGE (v : Value) (d : Date) : Except Err Bool :=
  match v with
  | .date dv => .ok (Date.ble d dv)
  | _ => .error .typeError

/-- `df['Date'] <= end` on one cell. -/
def cellCmpLE (v : Value) (d : Date) : Except Err Bool :=
  match v with
  | .date dv => .ok (Date.ble dv d)
  | _ => .error .typeError

/-- Keep the rows whose `Date` cell (at column index `i`) lies in `[sd, ed]`. -/
def filterRows (i : Nat) (sd ed : Date) : List (List Value) → Except Err (List (List Value))
  | [] => .ok []
  | r :: rs => do
      let b1 ← cellCmpGE (r.getD i .na) sd
      let b2 ← cellCmpLE (r.getD i .na) ed
      let rest ← filterRows i sd ed rs
      if b1 && b2 then .ok (r :: rest) else .ok rest

/-- `_apply_filters`: restrict to the rows whose `Date` lies in the inclusive range. -/
def apply_filters (df : Frame) (sd ed : Date) : Except Err Frame :=
  match colIdx df "Date" with
  | some i => do
      let rows ← filterRows i sd ed df.rows
      .ok { df with rows := rows }
  | none => .error (.keyError "Date")

/-- The scraper object's state: current team code, the configured date range, and the
per-season raw page cache (`season_raw_cache`), keyed by year alone. -/
structure ScraperState where
  team : String
  start_date : Option Date
  end_date : Option Date
  cache : List (Int × Page)
deriving DecidableEq, Repr

/-- `set_team`: uppercase and store the team code.  Nothing else changes. -/
def set_team (st : ScraperState) (t : String) : ScraperState :=
  { st with team := pyUpper t }

/-- `_validate_date_range`: the eager request checks, in source order.  Each
`RuntimeError` is the spec's `InvalidRequestError`. -/
def validate_date_range (st ed : Option Date) (nowYear : Int) : Except Err Unit :=
  match st with
  | none => .error (.invalidRequest "Must specify start date")
  | some s =>
      match ed with
      | none => .error (.invalidRequest "Must specify end date")
      | some e =>
          if s.year ≠ e.year then
            .error (.invalidRequest "Start/end date must be from the same season")
          else if Date.blt e s then
            .error (.invalidRequest "Start date must be before end date")
          else if nowYear < e.year then
            .error (.invalidRequest "Season cannot be past the current year")
          else .ok ()

/-- The parse-and-filter tail of `scrape`, given the page markup to use. -/
def runPipeline (team : String) (year : Int) (p : Page) (sd ed : Date) :
    Except Err Frame := do
  let df ← parse_raw team year p
  apply_filters df sd ed

/-- `_cache_source` followed by the cached-page lookup, parse and filter: fetch only
when the season year is not yet cached, record the new entry, and run the pipeline on
the cached page.  The `Nat` counts fetch invocations. -/
def scrapeCore (fetch : String → Int → Page) (st : ScraperState) (sd ed : Date) :
    Except Err Frame × ScraperState × Nat :=
  match st.cache.lookup sd.year with
  | some page => (runPipeline st.team sd.year page sd ed, st, 0)
  | none =>
      let page := fetch st.team sd.year
      let st2 := { st with cache := (sd.year, page) :: st.cache }
      (runPipeline st2.team sd.year page sd ed, st2, 1)

/-- The page a `scrape()` call actually parses: the cached markup for the season
year when there is one, otherwise the page the fetcher returns for the current team
and year — exactly the entry `_cache_source` leaves in `season_raw_cache`. -/
def scrapedPage (fetch : String → Int → Page) (st : ScraperState) (sd : Date) :
    Page :=
  match st.cache.lookup sd.year with
  | some page => page
  | none => fetch st.team sd.year

/-- `scrape`: validate the stored date range (the team is always a string, so
`_validate_team` never fires), then fetch-or-reuse the season page and run the
pipeline.  Returns the result, the post-call object state, and the number of fetches
performed. -/
def scrape (fetch : String → Int → Page) (nowYear : Int) (st : ScraperState) :
    Except Err Frame × ScraperState × Nat :=
  match validate_date_range st.start_date st.end_date nowYear with
  | .error e => (.error e, st, 0)
  | .ok _ =>
      match st.start_date, st.end_date with
      | some sd, some ed => scrapeCore fetch st sd ed
      | _, _ => (.error .typeError, st, 0)  -- unreachable: validation forces both dates

/-- The claim's request-validity predicate: a request is invalid when a date is
missing, the years differ, the start is after the end, or the season is in the
future. -/
def requestInvalid (s e : Option Date) (nowYear : Int) : Bool :=
  match s, e with
  | none, _ => true
  | _, none => true
  | some sd, some ed =>
      (sd.year != ed.year) || Date.blt ed sd || decide (nowYear < ed.year)

/-- Is the error an `InvalidRequestError` (a `_validate_date_range` `RuntimeError`)? -/
def Err.isIR : Err → Bool
  | .invalidRequest _ => true
  | _ => false

/-! ### Concrete data used to exercise the theorems on closed inputs -/

/-- Heading cells of a small schedule table in the shape the parser expects: a game
number column (th-only, no matching `td`), then twenty data columns. -/
def sampleHeaderCells : List String :=
  ["Gm#", "Date", "Tm", "", "@", "Opp", "W/L", "R", "RA", "Inn", "W-L",
   "Rank", "GB", "Win", "Loss", "Save", "Time", "D/N", "Attendance", "Streak", "Orig"]

/-- One completed-game row (20 `td` texts), with the blanks the row normalizer fills:
home team, home game, regulation length, no decisions recorded, day/night and time
unknown. -/
def sampleRow : List String :=
  ["Monday, Apr 3 (1)", "", "box", "", "BOS", "W", "5", "3", "", "1-0", "2",
   "1.0", "", "", "", "", "", "39,662", "+", "x"]

/-- A page holding one well-formed table: the sample row plus the trailing legend row
that `_parse_raw` skips. -/
def samplePage : Page :=
  { tables := [{ headerCells := sampleHeaderCells, bodyRows := [sampleRow, ["legend"]] }] }

/-- The same table but whose only data row has exactly one `td` cell. -/
def oneCellPage : Page :=
  { tables := [{ headerCells := sampleHeaderCells, bodyRows := [["x"], ["legend"]] }] }

/-- A page with no `table` element at all. -/
def noTablePage : Page := { tables := [] }

/-- A scraper configured for NYY over April 2023 with an empty season cache. -/
def sampleState : ScraperState :=
  { team := "NYY", start_date := some ⟨2023, 4, 1⟩, end_date := some ⟨2023, 4, 30⟩,
    cache := [] }

/-- A scraper whose start and end dates fall in different years. -/
def badYearsState : ScraperState :=
  { team := "NYY", start_date := some ⟨2023, 5, 1⟩, end_date := some ⟨2024, 5, 1⟩,
    cache := [] }

/-- A one-column frame exercising the streak coercion. -/
def streakFrame : Frame :=
  { header := [some "Streak"], rows := [[.str "+++"], [.str "--"]] }

/-- A rectangular frame whose `Attendance` cell is the empty string. -/
def emptyAttFrame : Frame :=
  { header := [some "R", some "RA", some "Inn", some "Rank", some "Attendance"],
    rows := [[.str "1", .str "2", .str "9", .str "1", .str ""]] }

/-- A frame whose `Attendance` column is missing in its only row. -/
def naAttFrame : Frame :=
  { header := [some "R", some "RA", some "Inn", some "Rank", some "Attendance"],
    rows := [[.str "1", .str "2", .str "9", .str "1", .na]] }

/-- A not-yet-played-game row: six cells instead of a completed game's seventeen. -/
def futureRow : List String :=
  ["Friday, Sep 29", "", "box", "@", "BOS", "8:00"]

/-- The same scraper as `sampleState` but with the 2023 page already cached. -/
def cachedState : ScraperState :=
  { team := "NYY", start_date := some ⟨2023, 4, 1⟩, end_date := some ⟨2023, 4, 30⟩,
    cache := [(2023, samplePage)] }

/-- What scraping `samplePage` for NYY over April 2023 produces: one fully coerced
game record. -/
def sampleResult : Frame :=
  { header := [some "Date", some "Tm", some "Home_Away", some "Opp", some "W/L",
      some "R", some "RA", some "Inn", some "W-L", some "Rank", some "GB", some "Win",
      some "Loss", some "Save", some "Time", some "D/N", some "Attendance",
      some "Streak", some "Orig"],
    rows := [[.date ⟨2023, 4, 3⟩, .str "NYY", .str "Home", .str "BOS", .str "W",
      .num 5, .num 3, .num 9, .str "1-0", .num 2, .str "1.0", .str "None",
      .str "None", .str "None", .str "Unknown", .str "Unknown", .num 39662,
      .num 1, .str "x"]] }

/-! ## Supporting lemmas -/

theorem getD_set_self {α : Type} (v d : α) :
    ∀ (l : List α) (i : Nat), i < l.length → (l.set i v).getD i d = v := by
  intro l
  induction l with
  | nil => intro i h; simp at h
  | cons a t ih =>
      intro i h
      cases i with
      | zero => rfl
      | succ j => exact ih j (by simpa using h)

theorem getD_set_ne {α : Type} (v d : α) :
    ∀ (l : List α) (i j : Nat), i ≠ j → (l.set i v).getD j d = l.getD j d := by
  intro l
  induction l with
  | nil => intro i j _; simp [List.set]
  | cons a t ih =>
      intro i j hne
      cases i with
      | zero =>
          cases j with
          | zero => exact absurd rfl hne
          | succ k => rfl
      | succ i2 =>
          cases j with
          | zero => rfl
          | succ k => exact ih i2 k (by omega)

theorem getD_snoc {α : Type} (v d : α) :
    ∀ (r : List α), (r ++ [v]).getD r.length d = v := by
  intro r
  induction r with
  | nil => rfl
  | cons a t ih => exact ih

theorem colFind_some_lt (name : String) :
    ∀ (hd : List (Option String)) (i : Nat), colFind name hd = some i → i < hd.length := by
  intro hd
  induction hd with
  | nil => intro i h; simp [colFind] at h
  | cons x t ih =>
      intro i h
      by_cases hx : x == some name
      · simp [colFind, hx] at h
        simp
        omega
      · simp [colFind, hx] at h
        obtain ⟨j, hj, rfl⟩ := h
        have := ih j hj
        simp
        omega

theorem colFind_append_self (name : String) :
    ∀ (hd : List (Option String)), colFind name hd = none →
      colFind name (hd ++ [some name]) = some hd.length := by
  intro hd
  induction hd with
  | nil => intro _; simp [colFind]
  | cons x t ih =>
      intro h
      by_cases hx : x == some name
      · simp [colFind, hx] at h
      · have h2 : colFind name t = none := by
          simp only [colFind, hx, Bool.false_eq_true, if_false] at h
          cases hc : colFind name t with
          | none => rfl
          | some j => rw [hc] at h; simp at h
        simp [colFind, hx, ih h2]

/-- `Frame.rect` unpacked. -/
theorem rect_iff (f : Frame) :
    f.rect = true ↔ ∀ r ∈ f.rows, r.length = f.header.length := by
  simp [Frame.rect, List.all_eq_true]

theorem zipWith_set_getD (i : Nat) :
    ∀ (rows : List (List Value)) (vals : List Value),
      rows.length = vals.length → (∀ r ∈ rows, i < r.length) →
      (List.zipWith (fun r v => r.set i v) rows vals).map
        (fun r => r.getD i Value.na) = vals := by
  intro rows
  induction rows with
  | nil => intro vals h _; cases vals <;> simp_all
  | cons r rs ih =>
      intro vals h hin
      cases vals with
      | nil => simp at h
      | cons v vs =>
          simp only [List.zipWith_cons_cons, List.map_cons]
          rw [getD_set_self v Value.na r i (hin r (by simp)),
            ih vs (by simpa using h) (fun x hx => hin x (by simp [hx]))]

theorem zipWith_snoc_getD (k : Nat) :
    ∀ (rows : List (List Value)) (vals : List Value),
      rows.length = vals.length → (∀ r ∈ rows, r.length = k) →
      (List.zipWith (fun r v => r ++ [v]) rows vals).map
        (fun r => r.getD k Value.na) = vals := by
  intro rows
  induction rows with
  | nil => intro vals h _; cases vals <;> simp_all
  | cons r rs ih =>
      intro vals h hlen
      cases vals with
      | nil => simp at h
      | cons v vs =>
          simp only [List.zipWith_cons_cons, List.map_cons]
          have hk : r.length = k := hlen r (by simp)
          subst hk
          rw [getD_snoc v Value.na r,
            ih vs (by simpa using h) (fun x hx => hlen x (by simp [hx]))]

/-- Writing a column and reading it back returns exactly what was written (on a
rectangular frame with one value per row). -/
theorem getCol_setColVals_self (f : Frame) (name : String) (vals : List Value)
    (hr : f.rect = true) (hlen : vals.length = f.rows.length) :
    getCol (setColVals f name vals) name = .ok vals := by
  have hrect := (rect_iff f).mp hr
  unfold setColVals getCol colIdx
  cases hidx : colFind name f.header with
  | some i =>
      have hi : i < f.header.length := colFind_some_lt name f.header i hidx
      simp only [hidx]
      rw [zipWith_set_getD i f.rows vals hlen.symm
        (fun r hrr => by rw [hrect r hrr]; exact hi)]
  | none =>
      simp only [hidx, colFind_append_self name f.header hidx]
      rw [zipWith_snoc_getD f.header.length f.rows vals hlen.symm hrect]

theorem mem_zipWith_exists {α β γ : Type} {f : α → β → γ} :
    ∀ {l1 : List α} {l2 : List β} {x : γ}, x ∈ List.zipWith f l1 l2 →
      ∃ a b, a ∈ l1 ∧ b ∈ l2 ∧ x = f a b := by
  intro l1
  induction l1 with
  | nil => intro l2 x h; simp at h
  | cons a t ih =>
      intro l2 x h
      cases l2 with
      | nil => simp at h
      | cons b t2 =>
          simp only [List.zipWith_cons_cons, List.mem_cons] at h
          rcases h with rfl | h
          · exact ⟨a, b, by simp, by simp, rfl⟩
          · obtain ⟨a2, b2, ha, hb, rfl⟩ := ih h
            exact ⟨a2, b2, by simp [ha], by simp [hb], rfl⟩

/-- `setColVals` preserves rectangularity. -/
theorem rect_setColVals (f : Frame) (name : String) (vals : List Value)
    (hr : f.rect = true) :
    (setColVals f name vals).rect = true := by
  have hrect := (rect_iff f).mp hr
  rw [rect_iff]
  intro r hrr
  simp only [setColVals, colIdx] at hrr ⊢
  cases hidx : colFind name f.header with
  | some i =>
      simp only [hidx] at hrr ⊢
      obtain ⟨a, b, ha, _, rfl⟩ := mem_zipWith_exists hrr
      simpa using hrect a ha
  | none =>
      simp only [hidx] at hrr ⊢
      obtain ⟨a, b, ha, _, rfl⟩ := mem_zipWith_exists hrr
      simp [hrect a ha]

theorem except_bind_ok {α β : Type} (a : α) (g : α → Except Err β) :
    (Except.ok a >>= g) = g a := rfl

theorem except_bind_error {α β : Type} (e : Err) (g : α → Except Err β) :
    ((Except.error e : Except Err α) >>= g) = Except.error e := rfl

/-- Dropping the columns labelled `n` moves the first column labelled `m ≠ n` to a new
index but leaves both its presence and its per-row values intact. -/
theorem colFind_filter_spec (m n : String) (hne : m ≠ n) :
    ∀ (hd : List (Option String)),
      (colFind m hd = none →
        colFind m (hd.filter (fun x => !(x == some n))) = none) ∧
      (∀ i, colFind m hd = some i →
        ∃ i2, colFind m (hd.filter (fun x => !(x == some n))) = some i2 ∧
          ∀ r : List Value, r.length = hd.length →
            (((hd.zip r).filter (fun p => !(p.1 == some n))).map Prod.snd).getD i2
                Value.na
              = r.getD i Value.na) := by
  intro hd
  induction hd with
  | nil =>
      refine ⟨fun _ => by simp [colFind], fun i h => by simp [colFind] at h⟩
  | cons o hd2 ih =>
      by_cases hon : o == some n
      · have hom : (o == some m) = false := by
          have ho : o = some n := by simpa using hon
          subst ho
          simp only [beq_eq_false_iff_ne, ne_eq, Option.some.injEq]
          exact fun hnm => hne hnm.symm
        constructor
        · intro h
          simp only [colFind, hom, Bool.false_eq_true, if_false] at h
          have h2 : colFind m hd2 = none := by
            cases hc : colFind m hd2 with
            | none => rfl
            | some j => rw [hc] at h; simp at h
          simpa [List.filter_cons, hon] using (ih.1 h2)
        · intro i h
          simp only [colFind, hom, Bool.false_eq_true, if_false] at h
          cases hc : colFind m hd2 with
          | none => rw [hc] at h; simp at h
          | some j =>
              rw [hc] at h
              have hi : i = j + 1 := by simpa using h.symm
              subst hi
              obtain ⟨i2, hi2, hval⟩ := ih.2 j hc
              refine ⟨i2, by simpa [List.filter_cons, hon] using hi2, ?_⟩
              intro r hlen
              cases r with
              | nil => simp at hlen
              | cons v r2 =>
                  simp only [List.zip_cons_cons, List.filter_cons, hon]
                  simpa using hval r2 (by simpa using hlen)
      · constructor
        · intro h
          by_cases hom : o == some m
          · simp [colFind, hom] at h
          · simp only [colFind, hom, Bool.false_eq_true, if_false] at h
            have h2 : colFind m hd2 = none := by
              cases hc : colFind m hd2 with
              | none => rfl
              | some j => rw [hc] at h; simp at h
            simp only [List.filter_cons, hon, colFind, hom, Bool.false_eq_true, if_false]
            rw [ih.1 h2]
            rfl
        · intro i h
          by_cases hom : o == some m
          · have hi0 : i = 0 := by simpa [colFind, hom] using h.symm
            subst hi0
            refine ⟨0, by simp [List.filter_cons, hon, colFind, hom], ?_⟩
            intro r hlen
            cases r with
            | nil => simp at hlen
            | cons v r2 => simp [List.zip_cons_cons, List.filter_cons, hon]
          · simp only [colFind, hom, Bool.false_eq_true, if_false] at h
            cases hc : colFind m hd2 with
            | none => rw [hc] at h; simp at h
            | some j =>
                rw [hc] at h
                have hi : i = j + 1 := by simpa using h.symm
                subst hi
                obtain ⟨i2, hi2, hval⟩ := ih.2 j hc
                refine ⟨i2 + 1,
                  by simp [List.filter_cons, hon, colFind, hom, hi2], ?_⟩
                intro r hlen
                cases r with
                | nil => simp at hlen
                | cons v r2 =>
                    simp only [List.zip_cons_cons, List.filter_cons, hon]
                    simpa using hval r2 (by simpa using hlen)

/-- Reading a column other than the dropped one is unaffected by `dropCol`. -/
theorem getCol_dropCol (f g : Frame) (n m : String) (hne : m ≠ n)
    (hr : f.rect = true) (hdrop : dropCol f n = .ok g) :
    getCol g m = getCol f m := by
  have hrect := (rect_iff f).mp hr
  unfold dropCol at hdrop
  split at hdrop
  case isFalse => simp at hdrop
  case isTrue hc =>
    injection hdrop with hg
    subst hg
    unfold getCol colIdx
    cases hfind : colFind m f.header with
    | none =>
        rw [(colFind_filter_spec m n hne f.header).1 hfind]
    | some i =>
        obtain ⟨i2, hi2, hval⟩ := (colFind_filter_spec m n hne f.header).2 i hfind
        simp only [hi2, List.map_map]
        rw [List.map_congr_left]
        intro r hrr
        exact hval r (hrect r hrr)

/-! ### Which error can each pipeline stage raise? -/

theorem getCol_error (f : Frame) (n : String) (e : Err) (h : getCol f n = .error e) :
    e = .keyError n := by
  unfold getCol at h
  split at h
  · simp at h
  · injection h with h2
    exact h2.symm

theorem dropCol_error (f : Frame) (n : String) (e : Err) (h : dropCol f n = .error e) :
    e = .keyError n := by
  unfold dropCol at h
  split at h
  · simp at h
  · injection h with h2
    exact h2.symm

theorem eMapM_error {α β : Type} (g : α → Except Err β) :
    ∀ (l : List α) (e : Err), eMapM g l = .error e → ∃ x ∈ l, g x = .error e := by
  intro l
  induction l with
  | nil => intro e h; simp [eMapM] at h
  | cons a t ih =>
      intro e h
      simp only [eMapM] at h
      cases hga : g a with
      | error e2 =>
          rw [hga, except_bind_error] at h
          injection h with h2
          exact ⟨a, by simp, by rw [hga, h2]⟩
      | ok b =>
          rw [hga, except_bind_ok] at h
          cases hm : eMapM g t with
          | error e3 =>
              rw [hm, except_bind_error] at h
              injection h with h2
              obtain ⟨x, hx, hgx⟩ := ih e3 hm
              exact ⟨x, by simp [hx], by rw [hgx, h2]⟩
          | ok bs => rw [hm, except_bind_ok] at h; simp at h

theorem bind_error_elim {α β : Type} (m : Except Err α) (g : α → Except Err β)
    (e : Err) (h : (m >>= g) = .error e) :
    m = .error e ∨ ∃ a, m = .ok a ∧ g a = .error e := by
  cases m with
  | error e2 =>
      rw [except_bind_error] at h
      injection h with h2
      subst h2
      exact Or.inl rfl
  | ok a => rw [except_bind_ok] at h; exact Or.inr ⟨a, rfl, h⟩

theorem astypeFloatCell_error (v : Value) (e : Err)
    (h : astypeFloatCell v = .error e) : e.isIR = false := by
  cases v with
  | na => simp [astypeFloatCell] at h
  | num q => simp [astypeFloatCell] at h
  | str s =>
      simp only [astypeFloatCell] at h
      split at h
      · simp at h
      · injection h with h2; rw [← h2]; rfl
  | date d =>
      simp only [astypeFloatCell] at h
      injection h with h2; rw [← h2]; rfl
  | tag s =>
      simp only [astypeFloatCell] at h
      injection h with h2; rw [← h2]; rfl

theorem astypeGo_error :
    ∀ (ns : List String) (f : Frame) (e : Err),
      astypeGo f ns = .error e → e.isIR = false := by
  intro ns
  induction ns with
  | nil => intro f e h; simp [astypeGo] at h
  | cons n t ih =>
      intro f e h
      simp only [astypeGo] at h
      rcases bind_error_elim _ _ _ h with h2 | ⟨col, hg, h2⟩
      · rw [getCol_error f n _ h2]; rfl
      · rcases bind_error_elim _ _ _ h2 with h3 | ⟨col2, hm, h3⟩
        · obtain ⟨x, _, hgx⟩ := eMapM_error astypeFloatCell col _ h3
          exact astypeFloatCell_error x _ hgx
        · exact ih _ _ h3

theorem astypeFloatCols_error (f : Frame) (ns : List String) (e : Err)
    (h : astypeFloatCols f ns = .error e) : e.isIR = false := by
  unfold astypeFloatCols at h
  rcases bind_error_elim _ _ _ h with h2 | ⟨cols, hm, h2⟩
  · obtain ⟨n, _, hgn⟩ := eMapM_error (fun n => getCol f n) ns _ h2
    rw [getCol_error f n _ hgn]; rfl
  · exact astypeGo_error ns f e h2

theorem process_win_streak_error (f : Frame) (e : Err)
    (h : process_win_streak f = .error e) : e.isIR = false := by
  unfold process_win_streak at h
  rcases bind_error_elim _ _ _ h with h2 | ⟨streak, hg, h2⟩
  · rw [getCol_error f "Streak" _ h2]; rfl
  · split at h2
    · rcases bind_error_elim _ _ _ h2 with h3 | ⟨s2, hg2, h3⟩
      · rw [getCol_error _ "Streak2" _ h3]; rfl
      · rw [dropCol_error _ "Streak2" _ h3]; rfl
    · simp at h2

theorem make_numeric_error (f : Frame) (e : Err)
    (h : make_numeric f = .error e) : e.isIR = false := by
  unfold make_numeric at h
  rcases bind_error_elim _ _ _ h with h2 | ⟨att, hg, h2⟩
  · rw [getCol_error f "Attendance" _ h2]; rfl
  · rcases bind_error_elim _ _ _ h2 with h3 | ⟨att2, hg2, h3⟩
    · rw [getCol_error _ "Attendance" _ h3]; rfl
    · exact astypeFloatCols_error _ _ e h3

theorem dateHelper_error (y : Int) (v : Value) (e : Err)
    (h : dateHelper y v = .error e) : e.isIR = false := by
  cases v with
  | str s =>
      simp only [dateHelper] at h
      split at h
      · simp at h
      · injection h with h2; rw [← h2]; rfl
  | na => simp only [dateHelper] at h; injection h with h2; rw [← h2]; rfl
  | num q => simp only [dateHelper] at h; injection h with h2; rw [← h2]; rfl
  | date d => simp only [dateHelper] at h; injection h with h2; rw [← h2]; rfl
  | tag s => simp only [dateHelper] at h; injection h with h2; rw [← h2]; rfl

theorem process_date_error (y : Int) (f : Frame) (e : Err)
    (h : process_date y f = .error e) : e.isIR = false := by
  unfold process_date at h
  rcases bind_error_elim _ _ _ h with h2 | ⟨dates, hg, h2⟩
  · rw [getCol_error f "Date" _ h2]; rfl
  · rcases bind_error_elim _ _ _ h2 with h3 | ⟨dates2, hm, h3⟩
    · obtain ⟨x, _, hgx⟩ := eMapM_error (dateHelper y) dates _ h3
      exact dateHelper_error y x _ hgx
    · simp at h3

theorem cellCmpGE_error (v : Value) (d : Date) (e : Err)
    (h : cellCmpGE v d = .error e) : e = .typeError := by
  unfold cellCmpGE at h
  split at h
  · simp at h
  · injection h with h2; exact h2.symm

theorem cellCmpLE_error (v : Value) (d : Date) (e : Err)
    (h : cellCmpLE v d = .error e) : e = .typeError := by
  unfold cellCmpLE at h
  split at h
  · simp at h
  · injection h with h2; exact h2.symm

theorem filterRows_error (i : Nat) (sd ed : Date) :
    ∀ (rows : List (List Value)) (e : Err),
      filterRows i sd ed rows = .error e → e = .typeError := by
  intro rows
  induction rows with
  | nil => intro e h; simp [filterRows] at h
  | cons r rs ih =>
      intro e h
      simp only [filterRows] at h
      rcases bind_error_elim _ _ _ h with h2 | ⟨b1, h1, h2⟩
      · exact cellCmpGE_error _ sd _ h2
      · rcases bind_error_elim _ _ _ h2 with h3 | ⟨b2, hcm, h3⟩
        · exact cellCmpLE_error _ ed _ h3
        · rcases bind_error_elim _ _ _ h3 with h4 | ⟨rest, hrest, h4⟩
          · exact ih _ h4
          · split at h4 <;> simp at h4

theorem apply_filters_error (df : Frame) (sd ed : Date) (e : Err)
    (h : apply_filters df sd ed = .error e) : e.isIR = false := by
  unfold apply_filters at h
  split at h
  case h_1 i hi =>
    rcases bind_error_elim _ _ _ h with h2 | ⟨rows, hf, h2⟩
    · rw [filterRows_error i sd ed df.rows _ h2]; rfl
    · simp at h2
  case h_2 => injection h with h2; rw [← h2]; rfl

theorem get_table_error (p : Page) (e : Err) (h : get_table p = .error e) :
    e = .dataNotFound noDataMsg := by
  unfold get_table at h
  split at h
  · injection h with h2; exact h2.symm
  · simp at h

theorem parse_raw_error (team : String) (year : Int) (p : Page) (e : Err)
    (h : parse_raw team year p = .error e) : e.isIR = false := by
  unfold parse_raw at h
  rcases bind_error_elim _ _ _ h with h2 | ⟨table, ht, h2⟩
  · rw [get_table_error p _ h2]; rfl
  · simp only [] at h2
    split at h2
    · rcases bind_error_elim _ _ _ h2 with h3 | ⟨df1, hd1, h3⟩
      · rw [dropCol_error _ "" _ h3]; rfl
      · rcases bind_error_elim _ _ _ h3 with h4 | ⟨df2, hd2, h4⟩
        · exact process_win_streak_error _ _ h4
        · rcases bind_error_elim _ _ _ h4 with h5 | ⟨df3, hd3, h5⟩
          · exact make_numeric_error _ _ h5
          · exact process_date_error year _ _ h5
    · injection h2 with h3; rw [← h3]; rfl

theorem runPipeline_error (team : String) (year : Int) (p : Page) (sd ed : Date)
    (e : Err) (h : runPipeline team year p sd ed = .error e) : e.isIR = false := by
  unfold runPipeline at h
  rcases bind_error_elim _ _ _ h with h2 | ⟨df, hp, h2⟩
  · exact parse_raw_error team year p _ h2
  · exact apply_filters_error df sd ed e h2

theorem bind_ok_elim {α β : Type} (m : Except Err α) (g : α → Except Err β)
    (b : β) (h : (m >>= g) = .ok b) : ∃ a, m = .ok a ∧ g a = .ok b := by
  cases m with
  | error e2 => rw [except_bind_error] at h; simp at h
  | ok a => rw [except_bind_ok] at h; exact ⟨a, rfl, h⟩

/-! ### Validation and the shape of `scrape` -/

theorem validate_cases (s e : Option Date) (nowYear : Int) :
    validate_date_range s e nowYear = .ok () ∨
      ∃ m, validate_date_range s e nowYear = .error (.invalidRequest m) := by
  cases s with
  | none => exact Or.inr ⟨"Must specify start date", by simp [validate_date_range]⟩
  | some sd =>
      cases e with
      | none => exact Or.inr ⟨"Must specify end date", by simp [validate_date_range]⟩
      | some ed =>
          simp only [validate_date_range]
          split_ifs <;> first | exact Or.inl rfl | exact Or.inr ⟨_, rfl⟩

theorem validate_ok_iff (s e : Option Date) (nowYear : Int) :
    validate_date_range s e nowYear = .ok () ↔
      requestInvalid s e nowYear = false := by
  cases s with
  | none => simp [validate_date_range, requestInvalid]
  | some sd =>
      cases e with
      | none => simp [validate_date_range, requestInvalid]
      | some ed =>
          simp only [validate_date_range, requestInvalid]
          split_ifs with h1 h2 h3 <;> simp_all

theorem validate_ok_dates (s e : Option Date) (nowYear : Int) (u : Unit)
    (h : validate_date_range s e nowYear = .ok u) :
    ∃ sd ed, s = some sd ∧ e = some ed := by
  cases s with
  | none => simp [validate_date_range] at h
  | some sd =>
      cases e with
      | none => simp [validate_date_range] at h
      | some ed => exact ⟨sd, ed, rfl, rfl⟩

theorem scrape_of_invalid (fetch : String → Int → Page) (nowYear : Int)
    (st : ScraperState)
    (h : requestInvalid st.start_date st.end_date nowYear = true) :
    ∃ m, scrape fetch nowYear st = (.error (.invalidRequest m), st, 0) := by
  rcases validate_cases st.start_date st.end_date nowYear with hok | ⟨m, herr⟩
  · rw [validate_ok_iff] at hok
    rw [hok] at h
    simp at h
  · exact ⟨m, by simp [scrape, herr]⟩

theorem scrape_of_valid (fetch : String → Int → Page) (nowYear : Int)
    (st : ScraperState) (sd ed : Date)
    (hs : st.start_date = some sd) (he : st.end_date = some ed)
    (h : requestInvalid st.start_date st.end_date nowYear = false) :
    scrape fetch nowYear st = scrapeCore fetch st sd ed := by
  have hok := (validate_ok_iff st.start_date st.end_date nowYear).mpr h
  rw [hs, he] at hok
  simp [scrape, hs, he, hok]

theorem scrapeCore_hit (fetch : String → Int → Page) (st : ScraperState)
    (sd ed : Date) (page : Page) (h : st.cache.lookup sd.year = some page) :
    scrapeCore fetch st sd ed = (runPipeline st.team sd.year page sd ed, st, 0) := by
  simp [scrapeCore, h]

theorem scrapeCore_miss (fetch : String → Int → Page) (st : ScraperState)
    (sd ed : Date) (h : st.cache.lookup sd.year = none) :
    scrapeCore fetch st sd ed =
      (runPipeline st.team sd.year (fetch st.team sd.year) sd ed,
        { st with cache := (sd.year, fetch st.team sd.year) :: st.cache }, 1) := by
  simp [scrapeCore, h]

/-! ### The shape of a successful filter -/

theorem cellCmpGE_ok_true (v : Value) (d : Date) (h : cellCmpGE v d = .ok true) :
    ∃ dv, v = .date dv ∧ Date.ble d dv = true := by
  cases v with
  | date dv =>
      refine ⟨dv, rfl, ?_⟩
      injection h
  | na => simp [cellCmpGE] at h
  | str s => simp [cellCmpGE] at h
  | num q => simp [cellCmpGE] at h
  | tag s => simp [cellCmpGE] at h

theorem cellCmpLE_ok_true (v : Value) (d : Date) (h : cellCmpLE v d = .ok true) :
    ∃ dv, v = .date dv ∧ Date.ble dv d = true := by
  cases v with
  | date dv =>
      refine ⟨dv, rfl, ?_⟩
      injection h
  | na => simp [cellCmpLE] at h
  | str s => simp [cellCmpLE] at h
  | num q => simp [cellCmpLE] at h
  | tag s => simp [cellCmpLE] at h

theorem filterRows_ok (i : Nat) (sd ed : Date) :
    ∀ (rows out : List (List Value)), filterRows i sd ed rows = .ok out →
      List.Sublist out rows ∧
        ∀ r ∈ out, ∃ d, r.getD i Value.na = .date d ∧
          Date.ble sd d = true ∧ Date.ble d ed = true := by
  intro rows
  induction rows with
  | nil =>
      intro out h
      simp only [filterRows] at h
      injection h with h2
      subst h2
      exact ⟨List.Sublist.refl [], by simp⟩
  | cons r rs ih =>
      intro out h
      simp only [filterRows] at h
      rcases bind_ok_elim _ _ _ h with ⟨b1, h1, h2⟩
      rcases bind_ok_elim _ _ _ h2 with ⟨b2, hcm, h3⟩
      rcases bind_ok_elim _ _ _ h3 with ⟨rest, hrest, h4⟩
      obtain ⟨hsub, hall⟩ := ih rest hrest
      by_cases hb : (b1 && b2) = true
      · rw [if_pos hb] at h4
        injection h4 with h5
        subst h5
        have hb1 : b1 = true := by simp at hb; exact hb.1
        have hb2 : b2 = true := by simp at hb; exact hb.2
        subst hb1
        subst hb2
        obtain ⟨d1, hd1, hge⟩ := cellCmpGE_ok_true _ sd h1
        obtain ⟨d2, hd2, hle⟩ := cellCmpLE_ok_true _ ed hcm
        refine ⟨List.Sublist.cons₂ r hsub, ?_⟩
        intro x hx
        rcases List.mem_cons.mp hx with rfl | hx2
        · refine ⟨d1, hd1, hge, ?_⟩
          have : Value.date d1 = Value.date d2 := by rw [← hd1, ← hd2]
          injection this with h6
          rw [h6]
          exact hle
        · exact hall x hx2
      · rw [if_neg hb] at h4
        injection h4 with h5
        subst h5
        exact ⟨List.Sublist.cons r hsub, hall⟩

theorem apply_filters_ok (df : Frame) (sd ed : Date) (out : Frame)
    (h : apply_filters df sd ed = .ok out) :
    out.header = df.header ∧ List.Sublist out.rows df.rows ∧
      ∃ i, colIdx df "Date" = some i ∧
        ∀ r ∈ out.rows, ∃ d, r.getD i Value.na = .date d ∧
          Date.ble sd d = true ∧ Date.ble d ed = true := by
  unfold apply_filters at h
  split at h
  case h_1 i hi =>
    rcases bind_ok_elim _ _ _ h with ⟨rows2, hf, h2⟩
    injection h2 with h3
    obtain ⟨hsub, hall⟩ := filterRows_ok i sd ed df.rows rows2 hf
    subst h3
    exact ⟨rfl, hsub, i, hi, hall⟩
  case h_2 => simp at h

theorem validate_error_invalid (s e : Option Date) (nowYear : Int) (x : Err)
    (h : validate_date_range s e nowYear = .error x) :
    requestInvalid s e nowYear = true := by
  by_cases hri : requestInvalid s e nowYear = true
  · exact hri
  · have hok := (validate_ok_iff s e nowYear).mpr (by simpa using hri)
    rw [hok] at h
    simp at h

theorem getD_eq_get {α : Type} (d : α) :
    ∀ (l : List α) (i : Nat) (h : i < l.length), l.getD i d = l.get ⟨i, h⟩ := by
  intro l
  induction l with
  | nil => intro i h; simp at h
  | cons a t ih =>
      intro i h
      cases i with
      | zero => rfl
      | succ j => exact ih j (by simpa using h)

theorem getD_of_le {α : Type} (d : α) :
    ∀ (l : List α) (i : Nat), l.length ≤ i → l.getD i d = d := by
  intro l
  induction l with
  | nil => intro i _; simp [List.getD]
  | cons a t ih =>
      intro i h
      cases i with
      | zero => simp at h
      | succ j => exact ih j (by simpa using h)

theorem applyOps_cons (i : Nat) (dflt : String) (rest : List (Nat × String))
    (cols : List String) :
    applyOps ((i, dflt) :: rest) cols =
      if h : i < cols.length then
        applyOps rest (if cols.get ⟨i, h⟩ == "" then cols.set i dflt else cols)
      else (cols, true) := rfl

/-! ## The claims -/

/-- C1: for every valid request that returns a `ResultSet`, every record's `Date`
value lies within `[start_date, end_date]`, both bounds inclusive, and the returned
records are a sublist — in the same relative order — of the rows parsed from the
page the call actually used: the cached markup for the season year, or the freshly
fetched page when the year was not cached (`scrapedPage`). -/
theorem c1_scrape_dates_within_range (fetch : String → Int → Page) (nowYear : Int)
    (st : ScraperState) (sd ed : Date) (df : Frame)
    (hs : st.start_date = some sd) (he : st.end_date = some ed)
    (hok : (scrape fetch nowYear st).1 = .ok df) :
    (∃ i, colIdx df "Date" = some i ∧
      ∀ r ∈ df.rows, ∃ d, r.getD i Value.na = .date d ∧
        Date.ble sd d = true ∧ Date.ble d ed = true) ∧
    ∃ f0, parse_raw st.team sd.year (scrapedPage fetch st sd) = .ok f0 ∧
      List.Sublist df.rows f0.rows := by
  rcases validate_cases st.start_date st.end_date nowYear with hvok | ⟨m, herr⟩
  · have hval := (validate_ok_iff _ _ _).mp hvok
    rw [scrape_of_valid fetch nowYear st sd ed hs he hval] at hok
    cases hcache : st.cache.lookup sd.year with
    | some page =>
        have hsp : scrapedPage fetch st sd = page := by
          simp [scrapedPage, hcache]
        rw [scrapeCore_hit fetch st sd ed page hcache] at hok
        have hok2 : runPipeline st.team sd.year page sd ed = .ok df := hok
        unfold runPipeline at hok2
        rcases bind_ok_elim _ _ _ hok2 with ⟨f0, hp, hf⟩
        obtain ⟨hh, hsub, i, hi, hall⟩ := apply_filters_ok f0 sd ed df hf
        refine ⟨⟨i, ?_, hall⟩, f0, by rw [hsp]; exact hp, hsub⟩
        simpa [colIdx, hh] using hi
    | none =>
        have hsp : scrapedPage fetch st sd = fetch st.team sd.year := by
          simp [scrapedPage, hcache]
        rw [scrapeCore_miss fetch st sd ed hcache] at hok
        have hok2 : runPipeline st.team sd.year (fetch st.team sd.year) sd ed =
            .ok df := hok
        unfold runPipeline at hok2
        rcases bind_ok_elim _ _ _ hok2 with ⟨f0, hp, hf⟩
        obtain ⟨hh, hsub, i, hi, hall⟩ := apply_filters_ok f0 sd ed df hf
        refine ⟨⟨i, ?_, hall⟩, f0, by rw [hsp]; exact hp, hsub⟩
        simpa [colIdx, hh] using hi
  · have : (scrape fetch nowYear st).1 = .error (.invalidRequest m) := by
      simp [scrape, herr]
    rw [this] at hok
    simp at hok

/-- Closed instance of C1: scraping the sample page over April 2023 returns the one
April-3 record, inside the requested range and in the order of the page the call
fetched. -/
theorem c1_witness :
    (∃ i, colIdx sampleResult "Date" = some i ∧
      ∀ r ∈ sampleResult.rows, ∃ d, r.getD i Value.na = .date d ∧
        Date.ble ⟨2023, 4, 1⟩ d = true ∧ Date.ble d ⟨2023, 4, 30⟩ = true) ∧
    ∃ f0, parse_raw sampleState.team (Date.year ⟨2023, 4, 1⟩)
        (scrapedPage (fun _ _ => samplePage) sampleState ⟨2023, 4, 1⟩) = .ok f0 ∧
      List.Sublist sampleResult.rows f0.rows :=
  c1_scrape_dates_within_range (fun _ _ => samplePage) 2023 sampleState
    ⟨2023, 4, 1⟩ ⟨2023, 4, 30⟩ sampleResult rfl rfl (by decide)

/-- C2: `scrape()` raises `InvalidRequestError` exactly when the request is invalid
(missing start or end date, mismatched years, start after end, or a future season),
and in that case no fetch is performed and the object state — in particular the
season cache — is untouched. -/
theorem c2_invalid_request_exactly (fetch : String → Int → Page) (nowYear : Int)
    (st : ScraperState) :
    ((∃ m, (scrape fetch nowYear st).1 = .error (.invalidRequest m)) ↔
      requestInvalid st.start_date st.end_date nowYear = true) ∧
    (requestInvalid st.start_date st.end_date nowYear = true →
      (scrape fetch nowYear st).2.2 = 0 ∧ (scrape fetch nowYear st).2.1 = st) := by
  constructor
  · constructor
    · rintro ⟨m, hm⟩
      by_contra hno
      have hval : requestInvalid st.start_date st.end_date nowYear = false := by
        simpa using hno
      have hok := (validate_ok_iff _ _ _).mpr hval
      obtain ⟨sd, ed, hs, he⟩ := validate_ok_dates _ _ _ _ hok
      rw [scrape_of_valid fetch nowYear st sd ed hs he hval] at hm
      cases hcache : st.cache.lookup sd.year with
      | some page =>
          rw [scrapeCore_hit fetch st sd ed page hcache] at hm
          have hm2 : runPipeline st.team sd.year page sd ed =
              .error (.invalidRequest m) := hm
          have hir := runPipeline_error _ _ _ _ _ _ hm2
          simp [Err.isIR] at hir
      | none =>
          rw [scrapeCore_miss fetch st sd ed hcache] at hm
          have hm2 : runPipeline st.team sd.year (fetch st.team sd.year) sd ed =
              .error (.invalidRequest m) := hm
          have hir := runPipeline_error _ _ _ _ _ _ hm2
          simp [Err.isIR] at hir
    · intro h
      obtain ⟨m, hm⟩ := scrape_of_invalid fetch nowYear st h
      exact ⟨m, by rw [hm]⟩
  · intro h
    obtain ⟨m, hm⟩ := scrape_of_invalid fetch nowYear st h
    rw [hm]
    exact ⟨rfl, rfl⟩

/-- Closed instance of C2: a request spanning 2023–2024 performs no fetch and leaves
the scraper untouched. -/
theorem c2_witness :
    (scrape (fun _ _ => noTablePage) 2023 badYearsState).2.2 = 0 ∧
    (scrape (fun _ _ => noTablePage) 2023 badYearsState).2.1 = badYearsState :=
  (c2_invalid_request_exactly (fun _ _ => noTablePage) 2023 badYearsState).2
    (by decide)

/-- C3: when the fetched page holds no table element, `scrape()` fails with
`DataNotFoundError` (and, the result being an error, no partial `ResultSet` is
produced). -/
theorem c3_no_table_data_not_found (fetch : String → Int → Page) (nowYear : Int)
    (st : ScraperState) (sd ed : Date)
    (hs : st.start_date = some sd) (he : st.end_date = some ed)
    (hval : requestInvalid st.start_date st.end_date nowYear = false)
    (hmiss : st.cache.lookup sd.year = none)
    (hnotab : (fetch st.team sd.year).tables = []) :
    (scrape fetch nowYear st).1 = .error (.dataNotFound noDataMsg) := by
  rw [scrape_of_valid fetch nowYear st sd ed hs he hval,
    scrapeCore_miss fetch st sd ed hmiss]
  show runPipeline st.team sd.year (fetch st.team sd.year) sd ed = _
  simp [runPipeline, parse_raw, get_table, hnotab, except_bind_error]

/-- Closed instance of C3: a tableless page for an NYY/2023 request yields
`DataNotFoundError`. -/
theorem c3_witness :
    (scrape (fun _ _ => noTablePage) 2023 sampleState).1 =
      .error (.dataNotFound noDataMsg) :=
  c3_no_table_data_not_found (fun _ _ => noTablePage) 2023 sampleState
    ⟨2023, 4, 1⟩ ⟨2023, 4, 30⟩ rfl rfl (by decide) rfl rfl

/-- C9: a `scrape()` whose season year is already cached performs no fetch and leaves
the whole cache — in particular that year's markup entry — unchanged; the fetcher
runs exactly once, on the first scrape of a year. -/
theorem c9_season_cache (fetch : String → Int → Page) (nowYear : Int)
    (st : ScraperState) (sd : Date) (hs : st.start_date = some sd) :
    (∀ page, st.cache.lookup sd.year = some page →
      (scrape fetch nowYear st).2.2 = 0 ∧
      (scrape fetch nowYear st).2.1.cache = st.cache) ∧
    (st.cache.lookup sd.year = none →
      requestInvalid st.start_date st.end_date nowYear = false →
      (scrape fetch nowYear st).2.2 = 1 ∧
      (scrape fetch nowYear st).2.1.cache.lookup sd.year =
        some (fetch st.team sd.year)) := by
  constructor
  · intro page hpage
    rcases validate_cases st.start_date st.end_date nowYear with hvok | ⟨m, herr⟩
    · have hval := (validate_ok_iff _ _ _).mp hvok
      obtain ⟨sd2, ed, hs2, he⟩ := validate_ok_dates _ _ _ _ hvok
      have hsd : sd2 = sd := by
        rw [hs] at hs2
        injection hs2 with h2
        exact h2.symm
      subst hsd
      rw [scrape_of_valid fetch nowYear st sd2 ed hs2 he hval,
        scrapeCore_hit fetch st sd2 ed page hpage]
      exact ⟨rfl, rfl⟩
    · have hm : scrape fetch nowYear st = (.error (.invalidRequest m), st, 0) := by
        simp [scrape, herr]
      rw [hm]
      exact ⟨rfl, rfl⟩
  · intro hmiss hval
    have hok := (validate_ok_iff _ _ _).mpr hval
    obtain ⟨sd2, ed, hs2, he⟩ := validate_ok_dates _ _ _ _ hok
    have hsd : sd2 = sd := by
      rw [hs] at hs2
      injection hs2 with h2
      exact h2.symm
    subst hsd
    rw [scrape_of_valid fetch nowYear st sd2 ed hs2 he hval,
      scrapeCore_miss fetch st sd2 ed hmiss]
    refine ⟨rfl, ?_⟩
    show ((sd2.year, fetch st.team sd2.year) :: st.cache).lookup sd2.year = _
    simp [List.lookup]

/-- Closed instance of C9: re-scraping 2023 with the page cached fetches nothing and
keeps the cache as it was. -/
theorem c9_witness :
    (scrape (fun _ _ => noTablePage) 2023 cachedState).2.2 = 0 ∧
    (scrape (fun _ _ => noTablePage) 2023 cachedState).2.1.cache =
      cachedState.cache :=
  (c9_season_cache (fun _ _ => noTablePage) 2023 cachedState ⟨2023, 4, 1⟩ rfl).1
    samplePage rfl

/-- C10 (implicit): the season cache is keyed by year alone.  After `set_team` to a
different team, scraping a cached year performs no fetch and the result is the
pipeline run on the other team's cached page, only the new (uppercased) team code
being fed to the row normalizer — and the normalizer ignores the team code entirely
on every row whose team-abbreviation cell is non-blank. -/
theorem c10_cache_keyed_by_year (fetch : String → Int → Page) (nowYear : Int)
    (st : ScraperState) (sd ed : Date) (t2 : String) (page : Page)
    (hs : st.start_date = some sd) (he : st.end_date = some ed)
    (hcache : st.cache.lookup sd.year = some page)
    (hval : requestInvalid st.start_date st.end_date nowYear = false) :
    (scrape fetch nowYear (set_team st t2)).2.2 = 0 ∧
    (scrape fetch nowYear (set_team st t2)).1 =
      runPipeline (pyUpper t2) sd.year page sd ed ∧
    (∀ tA tB : String, ∀ r : List String, r.getD 1 "" ≠ "" →
      parse_row tA r = parse_row tB r) := by
  have hs2 : (set_team st t2).start_date = some sd := hs
  have he2 : (set_team st t2).end_date = some ed := he
  have hc2 : (set_team st t2).cache.lookup sd.year = some page := hcache
  have hval2 : requestInvalid (set_team st t2).start_date
      (set_team st t2).end_date nowYear = false := hval
  rw [scrape_of_valid fetch nowYear (set_team st t2) sd ed hs2 he2 hval2,
    scrapeCore_hit fetch (set_team st t2) sd ed page hc2]
  refine ⟨rfl, rfl, ?_⟩
  intro tA tB r hr1
  by_cases h1 : 1 < r.length
  · have hget : r.get ⟨1, h1⟩ ≠ "" := by
      rw [← getD_eq_get "" r 1 h1]
      exact hr1
    have hbeq : (r.get ⟨1, h1⟩ == "") = false := by
      simpa using hget
    have key : applyOps (reformatOps tA) r = applyOps (reformatOps tB) r := by
      unfold reformatOps
      rw [applyOps_cons, applyOps_cons, dif_pos h1, dif_pos h1, hbeq]
      simp only [Bool.false_eq_true, if_false]
    unfold parse_row reformat_col_value
    rw [key]
  · exfalso
    exact hr1 (getD_of_le "" r 1 (by omega))

/-! ### Column bookkeeping for the coercion claims -/

theorem getCol_length (f : Frame) (n : String) (col : List Value)
    (h : getCol f n = .ok col) : col.length = f.rows.length := by
  unfold getCol at h
  split at h
  · injection h with h2
    rw [← h2]
    simp
  · simp at h

theorem setColVals_rows_length (f : Frame) (name : String) (vals : List Value) :
    (setColVals f name vals).rows.length = min f.rows.length vals.length := by
  unfold setColVals
  cases hidx : colFind name f.header <;> simp [colIdx, hidx]

theorem colFind_some_contains (name : String) :
    ∀ (hd : List (Option String)) (i : Nat), colFind name hd = some i →
      hd.contains (some name) = true := by
  intro hd
  induction hd with
  | nil => intro i h; simp [colFind] at h
  | cons x t ih =>
      intro i h
      by_cases hx : x == some name
      · have hxe : x = some name := by simpa using hx
        simp [List.contains_cons, hxe]
      · simp only [colFind, hx, Bool.false_eq_true, if_false] at h
        cases hc : colFind name t with
        | none => rw [hc] at h; simp at h
        | some j =>
            have hm : some name ∈ t := by simpa using ih j hc
            simp [List.contains_cons, hm]

theorem setColVals_contains (f : Frame) (name : String) (vals : List Value) :
    (setColVals f name vals).header.contains (some name) = true := by
  unfold setColVals
  cases hidx : colFind name f.header with
  | some i =>
      simp only [colIdx, hidx]
      exact colFind_some_contains name f.header i hidx
  | none => simp [colIdx, hidx]

theorem setColVals_contains_mono (f : Frame) (m n : String) (vals : List Value)
    (h : f.header.contains (some n) = true) :
    (setColVals f m vals).header.contains (some n) = true := by
  unfold setColVals
  cases hidx : colFind m f.header with
  | some i => simpa [colIdx, hidx] using h
  | none =>
      simp only [colIdx, hidx]
      have hm : some n ∈ f.header := by simpa using h
      simp [List.mem_append, hm]

theorem zipWith_streak (col : List Value) :
    List.zipWith (fun orig v => if firstCharIsDash orig then negValue v else v)
      col (col.map strLenCell) = col.map streakCoerce := by
  induction col with
  | nil => rfl
  | cons v t ih => simp [streakCoerce, ih]

theorem filter_notNA_nil (col : List Value) (hall : col.all Value.isNA = true) :
    col.filter (fun v => !v.isNA) = [] := by
  induction col with
  | nil => rfl
  | cons v t ih =>
      simp only [List.all_cons, Bool.and_eq_true] at hall
      simp [List.filter_cons, hall.1, ih hall.2]

theorem filter_notNA_pos (col : List Value) (hnall : col.all Value.isNA = false) :
    0 < (col.filter (fun v => !v.isNA)).length := by
  have h2 : ¬ col.all Value.isNA = true := by simp [hnall]
  rw [List.all_eq_true] at h2
  push_neg at h2
  obtain ⟨v, hv, hvna⟩ := h2
  exact List.length_pos.mpr
    (List.ne_nil_of_mem (List.mem_filter.mpr ⟨hv, by simpa using hvna⟩))

theorem eMapM_astype_na (l : List Value) :
    eMapM astypeFloatCell (l.map (fun _ => Value.na)) =
      .ok (l.map (fun _ => Value.na)) := by
  induction l with
  | nil => rfl
  | cons v t ih =>
      simp only [List.map_cons, eMapM]
      rw [show astypeFloatCell Value.na = Except.ok Value.na from rfl,
        except_bind_ok, ih, except_bind_ok]

/-- C4: when the `Streak` column has a non-missing entry, every cell is replaced by
`streakCoerce` — a run of `n` pluses becomes the integer `n` and a run of `n` minuses
becomes `-n` — while an entirely blank (all-missing) column leaves the frame
untouched. -/
theorem c4_streak_coercion (f : Frame) (col : List Value)
    (hcol : getCol f "Streak" = .ok col) (hr : f.rect = true) :
    (col.all Value.isNA = true → process_win_streak f = .ok f) ∧
    (col.all Value.isNA = false →
      ∃ f2, process_win_streak f = .ok f2 ∧
        getCol f2 "Streak" = .ok (col.map streakCoerce)) ∧
    (∀ n : Nat, 1 ≤ n →
      streakCoerce (.str (String.mk (List.replicate n '+'))) = .num (n : ℚ) ∧
      streakCoerce (.str (String.mk (List.replicate n '-'))) = .num (-(n : ℚ))) := by
  have hcl : col.length = f.rows.length := getCol_length f "Streak" col hcol
  refine ⟨?_, ?_, ?_⟩
  · intro hall
    unfold process_win_streak
    rw [hcol, except_bind_ok, if_neg]
    rw [filter_notNA_nil col hall]
    simp
  · intro hnall
    unfold process_win_streak
    rw [hcol, except_bind_ok, if_pos (filter_notNA_pos col hnall)]
    simp only []
    have hr1 : (setColVals f "Streak2" (col.map strLenCell)).rect = true :=
      rect_setColVals f "Streak2" (col.map strLenCell) hr
    have hlen1 : (setColVals f "Streak2" (col.map strLenCell)).rows.length =
        f.rows.length := by
      rw [setColVals_rows_length]
      simp [hcl]
    have hlenz : (List.zipWith
        (fun orig v => if firstCharIsDash orig then negValue v else v)
        col (col.map strLenCell)).length = f.rows.length := by
      simp [hcl]
    have hg2 : getCol (setColVals (setColVals f "Streak2" (col.map strLenCell))
        "Streak2" (List.zipWith
          (fun orig v => if firstCharIsDash orig then negValue v else v)
          col (col.map strLenCell))) "Streak2" =
        .ok (List.zipWith
          (fun orig v => if firstCharIsDash orig then negValue v else v)
          col (col.map strLenCell)) :=
      getCol_setColVals_self _ "Streak2" _ hr1 (by rw [hlenz, hlen1])
    rw [hg2, except_bind_ok]
    have hr2 : (setColVals (setColVals f "Streak2" (col.map strLenCell)) "Streak2"
        (List.zipWith (fun orig v => if firstCharIsDash orig then negValue v else v)
          col (col.map strLenCell))).rect = true :=
      rect_setColVals _ "Streak2" _ hr1
    have hlen2 : (setColVals (setColVals f "Streak2" (col.map strLenCell)) "Streak2"
        (List.zipWith (fun orig v => if firstCharIsDash orig then negValue v else v)
          col (col.map strLenCell))).rows.length = f.rows.length := by
      rw [setColVals_rows_length, hlenz, hlen1]
      simp
    have hr3 : (setColVals (setColVals (setColVals f "Streak2"
        (col.map strLenCell)) "Streak2" (List.zipWith
          (fun orig v => if firstCharIsDash orig then negValue v else v)
          col (col.map strLenCell))) "Streak" (List.zipWith
          (fun orig v => if firstCharIsDash orig then negValue v else v)
          col (col.map strLenCell))).rect = true :=
      rect_setColVals _ "Streak" _ hr2
    have hcont : (setColVals (setColVals (setColVals f "Streak2"
        (col.map strLenCell)) "Streak2" (List.zipWith
          (fun orig v => if firstCharIsDash orig then negValue v else v)
          col (col.map strLenCell))) "Streak" (List.zipWith
          (fun orig v => if firstCharIsDash orig then negValue v else v)
          col (col.map strLenCell))).header.contains (some "Streak2") = true :=
      setColVals_contains_mono _ "Streak" "Streak2" _
        (setColVals_contains (setColVals f "Streak2" (col.map strLenCell))
          "Streak2" _)
    have hdrop : ∃ g, dropCol (setColVals (setColVals (setColVals f "Streak2"
        (col.map strLenCell)) "Streak2" (List.zipWith
          (fun orig v => if firstCharIsDash orig then negValue v else v)
          col (col.map strLenCell))) "Streak" (List.zipWith
          (fun orig v => if firstCharIsDash orig then negValue v else v)
          col (col.map strLenCell))) "Streak2" = .ok g := by
      unfold dropCol
      rw [if_pos hcont]
      exact ⟨_, rfl⟩
    obtain ⟨g, hdropg⟩ := hdrop
    refine ⟨g, hdropg, ?_⟩
    rw [getCol_dropCol _ g "Streak2" "Streak" (by decide) hr3 hdropg,
      getCol_setColVals_self _ "Streak" _ hr2 (by rw [hlenz, hlen2]),
      zipWith_streak]
  · intro n hn
    have hplus : firstCharIsDash (.str (String.mk (List.replicate n '+'))) = false := by
      unfold firstCharIsDash
      cases n with
      | zero => simp at hn
      | succ k => simp [List.replicate_succ]
    have hminus : firstCharIsDash (.str (String.mk (List.replicate n '-'))) = true := by
      unfold firstCharIsDash
      cases n with
      | zero => simp at hn
      | succ k => simp [List.replicate_succ]
    constructor
    · simp [streakCoerce, hplus, strLenCell, String.length]
    · simp [streakCoerce, hminus, strLenCell, negValue, String.length]

/-- Closed instance of C4: `"+++"` coerces to `3` and `"--"` to `-2` in a concrete
streak column. -/
theorem c4_witness :
    (([Value.str "+++", Value.str "--"].all Value.isNA = true →
        process_win_streak streakFrame = .ok streakFrame) ∧
      ([Value.str "+++", Value.str "--"].all Value.isNA = false →
        ∃ f2, process_win_streak streakFrame = .ok f2 ∧
          getCol f2 "Streak" =
            .ok ([Value.str "+++", Value.str "--"].map streakCoerce)) ∧
      (∀ n : Nat, 1 ≤ n →
        streakCoerce (.str (String.mk (List.replicate n '+'))) = .num (n : ℚ) ∧
        streakCoerce (.str (String.mk (List.replicate n '-'))) = .num (-(n : ℚ)))) :=
  c4_streak_coercion streakFrame [Value.str "+++", Value.str "--"] (by decide)
    (by decide)

/-! ### Stripping the doubleheader disambiguator -/

theorem findSub_spaceParen_append (r : List Char) :
    ∀ (l : List Char), findSub spaceParen l = none →
      findSub spaceParen (l ++ ' ' :: '(' :: r) = some l.length := by
  intro l
  induction l with
  | nil =>
      intro _
      simp [findSub, spaceParen, List.isPrefixOf]
  | cons c t ih =>
      intro h
      simp only [findSub] at h
      by_cases hp : spaceParen.isPrefixOf (c :: t) = true
      · rw [if_pos hp] at h
        simp at h
      · rw [if_neg hp] at h
        have ht : findSub spaceParen t = none := by
          cases hft : findSub spaceParen t with
          | none => rfl
          | some j => rw [hft] at h; simp at h
        have hp2 : spaceParen.isPrefixOf (c :: (t ++ ' ' :: '(' :: r)) = false := by
          cases t with
          | nil => simp [spaceParen, List.isPrefixOf]
          | cons c2 t2 =>
              have hcond : (' ' == c && ('(' == c2 && true)) = false := by
                have := hp
                simp only [spaceParen, List.isPrefixOf] at this
                simpa using this
              simpa [spaceParen, List.isPrefixOf] using hcond
        rw [List.cons_append]
        rw [show findSub spaceParen (c :: (t ++ ' ' :: '(' :: r)) =
          if spaceParen.isPrefixOf (c :: (t ++ ' ' :: '(' :: r)) = true then some 0
          else (findSub spaceParen (t ++ ' ' :: '(' :: r)).map (· + 1) from rfl]
        rw [hp2]
        simp [ih ht]

/-- `String.mk` and `String.data` are mutually inverse. -/
theorem string_mk_data (s : String) : String.mk s.data = s := rfl

/-- `dateHelper` on a string cell, with the match spelled out. -/
theorem dateHelper_str (year : Int) (s : String) :
    dateHelper year (.str s) =
      match strptimeWeekdayMonthDay (stripParen s) with
      | some (m, d) => .ok (.date { year := year, month := m, day := d })
      | none => .error (.valueError "time data does not match format") := rfl

/-- C5: the `Date` helper strips the first `" ("`-introduced suffix — so any trailing
parenthesized doubleheader disambiguator — before parsing, and installs the requested
season's year: in particular `"Monday, Apr 3 (1)"` parses to April 3 of the season's
year. -/
theorem c5_date_coercion (year : Int) (val t : String)
    (hval : findSub spaceParen val.data = none) :
    dateHelper year (.str (val ++ " (" ++ t)) = dateHelper year (.str val) ∧
    dateHelper year (.str "Monday, Apr 3 (1)") = .ok (.date ⟨year, 4, 3⟩) ∧
    dateHelper year (.str "Monday, Apr 3") = .ok (.date ⟨year, 4, 3⟩) := by
  refine ⟨?_, rfl, rfl⟩
  have hdata : (val ++ " (" ++ t).data = val.data ++ ' ' :: '(' :: t.data := by
    simp [String.data_append]
  have h1 : stripParen (val ++ " (" ++ t) = val := by
    unfold stripParen
    rw [hdata, findSub_spaceParen_append t.data val.data hval]
    show String.mk ((val.data ++ ' ' :: '(' :: t.data).take val.data.length) = val
    rw [List.take_left]
  have h2 : stripParen val = val := by
    unfold stripParen
    rw [hval]
  rw [dateHelper_str, dateHelper_str]
  rw [h1]
  rw [h2]

/-- Closed instance of C5: stripping `" (1)"` from `"Monday, Apr 3 (1)"` changes
nothing, and the result is 2023-04-03 for season year 2023. -/
theorem c5_witness :
    (dateHelper 2023 (.str ("Monday, Apr 3" ++ " (" ++ "1)")) =
      dateHelper 2023 (.str "Monday, Apr 3") ∧
    dateHelper 2023 (.str "Monday, Apr 3 (1)") = .ok (.date ⟨2023, 4, 3⟩) ∧
    dateHelper 2023 (.str "Monday, Apr 3") = .ok (.date ⟨2023, 4, 3⟩)) :=
  c5_date_coercion 2023 "Monday, Apr 3" "1)" (by decide)

/-! ### Behavior of the sequential blank-cell defaults -/

theorem applyOps_ifset_length (cols : List String) (i : Nat) (dflt : String)
    (h : i < cols.length) :
    (if cols.get ⟨i, h⟩ == "" then cols.set i dflt else cols).length =
      cols.length := by
  split <;> simp

theorem applyOps_ok (ops : List (Nat × String)) :
    ∀ (cols : List String), (∀ p ∈ ops, p.1 < cols.length) →
      (applyOps ops cols).2 = false := by
  induction ops with
  | nil => intro cols _; rfl
  | cons p rest ih =>
      intro cols hp
      obtain ⟨i, dflt⟩ := p
      have hi : i < cols.length := hp (i, dflt) (by simp)
      rw [applyOps_cons, dif_pos hi]
      apply ih
      intro q hq
      rw [applyOps_ifset_length cols i dflt hi]
      exact hp q (by simp [hq])

theorem applyOps_err (ops : List (Nat × String)) :
    ∀ (cols : List String), (∃ p ∈ ops, cols.length ≤ p.1) →
      (applyOps ops cols).2 = true := by
  induction ops with
  | nil => intro cols h; simp at h
  | cons p rest ih =>
      intro cols h
      obtain ⟨i, dflt⟩ := p
      by_cases hi : i < cols.length
      · rw [applyOps_cons, dif_pos hi]
        apply ih
        obtain ⟨q, hq, hle⟩ := h
        rcases List.mem_cons.mp hq with rfl | hq2
        · omega
        · refine ⟨q, hq2, ?_⟩
          rw [applyOps_ifset_length cols i dflt hi]
          exact hle
      · rw [applyOps_cons, dif_neg hi]

theorem applyOps_getD_not_mem (ops : List (Nat × String)) :
    ∀ (cols : List String) (i : Nat), i ∉ ops.map Prod.fst →
      (applyOps ops cols).1.getD i "" = cols.getD i "" := by
  induction ops with
  | nil => intro cols i _; rfl
  | cons p rest ih =>
      intro cols i hni
      obtain ⟨j, dflt⟩ := p
      simp only [List.map_cons, List.mem_cons, not_or] at hni
      by_cases hj : j < cols.length
      · rw [applyOps_cons, dif_pos hj, ih _ i hni.2]
        split
        · exact getD_set_ne dflt "" cols j i (fun he => hni.1 (by rw [he]))
        · rfl
      · rw [applyOps_cons, dif_neg hj]

theorem applyOps_getD_mem (ops : List (Nat × String)) :
    ∀ (cols : List String) (i : Nat) (dflt : String),
      (ops.map Prod.fst).Nodup → (∀ p ∈ ops, p.1 < cols.length) →
      (i, dflt) ∈ ops →
      (applyOps ops cols).1.getD i "" =
        (if cols.getD i "" = "" then dflt else cols.getD i "") := by
  induction ops with
  | nil => intro _ _ _ _ _ h; simp at h
  | cons p rest ih =>
      intro cols i dflt hnd hrange hmem
      obtain ⟨j, d2⟩ := p
      have hj : j < cols.length := hrange (j, d2) (by simp)
      rw [applyOps_cons, dif_pos hj]
      simp only [List.map_cons, List.nodup_cons] at hnd
      rcases List.mem_cons.mp hmem with heq | hmem2
      · injection heq with hij hd
        subst hij
        subst hd
        rw [applyOps_getD_not_mem rest _ i hnd.1]
        rw [getD_eq_get "" cols i hj]
        by_cases hb : cols.get ⟨i, hj⟩ = ""
        · rw [if_pos (by simpa using hb), if_pos hb]
          exact getD_set_self dflt "" cols i hj
        · rw [if_neg (by simpa using hb), if_neg hb]
          rw [getD_eq_get "" cols i hj]
      · have hij : i ≠ j := by
          intro he
          subst he
          exact hnd.1 (List.mem_map_of_mem Prod.fst hmem2)
        have hrange2 : ∀ p ∈ rest,
            p.1 < (if cols.get ⟨j, hj⟩ == "" then cols.set j d2 else cols).length := by
          intro q hq
          rw [applyOps_ifset_length cols j d2 hj]
          exact hrange q (by simp [hq])
        rw [ih _ i dflt hnd.2 hrange2 hmem2]
        have hsame : (if cols.get ⟨j, hj⟩ == "" then cols.set j d2
            else cols).getD i "" = cols.getD i "" := by
          split
          · exact getD_set_ne d2 "" cols j i (Ne.symm hij)
          · rfl
        rw [hsame]

/-- C7: on a completed-game row (at least 17 cells), the row normalizer succeeds and
fills exactly the documented blanks before text extraction: blank team abbreviation
becomes the team code, blank home/away becomes `"Home"`, blank pitcher win/loss/save
cells become `"None"`, a blank extra-innings cell becomes `"9"` (which the numeric
pass coerces to `9.0`), and the blank day/night and time flag cells become
`"Unknown"`. -/
theorem c7_row_defaults (team : String) (cols : List String)
    (h : 17 ≤ cols.length) :
    (reformat_col_value team cols).2 = false ∧
    parse_row team cols = .texts ((reformat_col_value team cols).1.map pyStrip) ∧
    (reformat_col_value team cols).1.getD 1 "" =
      (if cols.getD 1 "" = "" then team else cols.getD 1 "") ∧
    (reformat_col_value team cols).1.getD 3 "" =
      (if cols.getD 3 "" = "" then "Home" else cols.getD 3 "") ∧
    (reformat_col_value team cols).1.getD 12 "" =
      (if cols.getD 12 "" = "" then "None" else cols.getD 12 "") ∧
    (reformat_col_value team cols).1.getD 13 "" =
      (if cols.getD 13 "" = "" then "None" else cols.getD 13 "") ∧
    (reformat_col_value team cols).1.getD 14 "" =
      (if cols.getD 14 "" = "" then "None" else cols.getD 14 "") ∧
    (reformat_col_value team cols).1.getD 8 "" =
      (if cols.getD 8 "" = "" then "9" else cols.getD 8 "") ∧
    (reformat_col_value team cols).1.getD 16 "" =
      (if cols.getD 16 "" = "" then "Unknown" else cols.getD 16 "") ∧
    (reformat_col_value team cols).1.getD 15 "" =
      (if cols.getD 15 "" = "" then "Unknown" else cols.getD 15 "") ∧
    astypeFloatCell (.str "9") = .ok (.num 9) := by
  have hrange : ∀ p ∈ reformatOps team, p.1 < cols.length := by
    intro p hp
    simp only [reformatOps, List.mem_cons] at hp
    rcases hp with rfl | rfl | rfl | rfl | rfl | rfl | rfl | rfl | hp
    all_goals first | omega | simp at hp
  have hnd : ((reformatOps team).map Prod.fst).Nodup := by
    simp [reformatOps]
  have hok : (reformat_col_value team cols).2 = false :=
    applyOps_ok (reformatOps team) cols hrange
  refine ⟨hok, ?_, ?_, ?_, ?_, ?_, ?_, ?_, ?_, ?_, by decide⟩
  · unfold parse_row
    cases hrc : reformat_col_value team cols with
    | mk cols2 b =>
        have hb : b = false := by
          have := hok
          rw [hrc] at this
          exact this
        subst hb
        rfl
  all_goals
    exact applyOps_getD_mem (reformatOps team) cols _ _ hnd hrange
      (by simp [reformatOps])

/-- Closed instance of C7: the sample row's blanks are filled as documented. -/
theorem c7_witness :
    (reformat_col_value "NYY" sampleRow).2 = false ∧
    parse_row "NYY" sampleRow =
      .texts ((reformat_col_value "NYY" sampleRow).1.map pyStrip) ∧
    (reformat_col_value "NYY" sampleRow).1.getD 1 "" =
      (if sampleRow.getD 1 "" = "" then "NYY" else sampleRow.getD 1 "") ∧
    (reformat_col_value "NYY" sampleRow).1.getD 3 "" =
      (if sampleRow.getD 3 "" = "" then "Home" else sampleRow.getD 3 "") ∧
    (reformat_col_value "NYY" sampleRow).1.getD 12 "" =
      (if sampleRow.getD 12 "" = "" then "None" else sampleRow.getD 12 "") ∧
    (reformat_col_value "NYY" sampleRow).1.getD 13 "" =
      (if sampleRow.getD 13 "" = "" then "None" else sampleRow.getD 13 "") ∧
    (reformat_col_value "NYY" sampleRow).1.getD 14 "" =
      (if sampleRow.getD 14 "" = "" then "None" else sampleRow.getD 14 "") ∧
    (reformat_col_value "NYY" sampleRow).1.getD 8 "" =
      (if sampleRow.getD 8 "" = "" then "9" else sampleRow.getD 8 "") ∧
    (reformat_col_value "NYY" sampleRow).1.getD 16 "" =
      (if sampleRow.getD 16 "" = "" then "Unknown" else sampleRow.getD 16 "") ∧
    (reformat_col_value "NYY" sampleRow).1.getD 15 "" =
      (if sampleRow.getD 15 "" = "" then "Unknown" else sampleRow.getD 15 "") ∧
    astypeFloatCell (.str "9") = .ok (.num 9) :=
  c7_row_defaults "NYY" sampleRow (by decide)

/-- C8 (amended): a row whose cell-text extraction fails because it has fewer than 17
cells is recovered without error by `_parse_row` itself when it has more than one
cell — only the first five stripped text values are kept — and a zero-cell row is
dropped entirely by the row loop; but a row with exactly one cell is returned as raw
unconverted elements, which the loop appends and which can make a later coercion
stage of `scrape()` fail (see the counterexample). -/
theorem c8_parse_anomaly (team : String) (cells : List String)
    (h : cells.length < 17) :
    (1 < cells.length →
      parse_row team cells =
        .texts (((reformat_col_value team cells).1.map pyStrip).take 5) ∧
      ∀ l, parse_row team cells = .texts l → l.length ≤ 5) ∧
    (cells = [] → parse_row team cells = .raw [] ∧
      ∀ rs, collectRows team ([] :: rs) = collectRows team rs) ∧
    (cells.length = 1 → parse_row team cells = .raw cells) := by
  have herr : (reformat_col_value team cells).2 = true := by
    apply applyOps_err
    exact ⟨(16, "Unknown"), by simp [reformatOps], by omega⟩
  refine ⟨?_, ?_, ?_⟩
  · intro h1
    have hmain : parse_row team cells =
        .texts (((reformat_col_value team cells).1.map pyStrip).take 5) := by
      unfold parse_row
      cases hrc : reformat_col_value team cells with
      | mk cols2 b =>
          have hb : b = true := by
            have := herr
            rw [hrc] at this
            exact this
          subst hb
          simp [h1]
    refine ⟨hmain, ?_⟩
    intro l hl
    rw [hmain] at hl
    injection hl with hl2
    rw [← hl2]
    simp
  · rintro rfl
    exact ⟨rfl, fun rs => rfl⟩
  · intro h1
    cases cells with
    | nil => simp at h1
    | cons c t =>
        cases t with
        | nil => rfl
        | cons c2 t2 => simp at h1

/-- Closed instance of C8: a six-cell scheduled-game row keeps only its first five
stripped texts, and the empty row is dropped by the loop. -/
theorem c8_witness :
    (1 < futureRow.length →
      parse_row "NYY" futureRow =
        .texts (((reformat_col_value "NYY" futureRow).1.map pyStrip).take 5) ∧
      ∀ l, parse_row "NYY" futureRow = .texts l → l.length ≤ 5) ∧
    (futureRow = [] → parse_row "NYY" futureRow = .raw [] ∧
      ∀ rs, collectRows "NYY" ([] :: rs) = collectRows "NYY" rs) ∧
    (futureRow.length = 1 → parse_row "NYY" futureRow = .raw futureRow) :=
  c8_parse_anomaly "NYY" futureRow (by decide)

/-- Counterexample to C8 as stated: a table body row with exactly one cell also makes
cell-text extraction fail, yet its raw element is appended and the scrape call then
fails with a `TypeError` during date coercion — the anomaly does surface as an error
from `scrape()`. -/
theorem c8_counterexample :
    (scrape (fun _ _ => oneCellPage) 2023 sampleState).1 = .error Err.typeError := by
  decide

/-! ### The attendance coercion (C6) -/

/-- C6 (amended): the coercer strips thousands-separator commas (`"39,662"` becomes
the float `39662.0`), turns the `"Unknown"` sentinel into a missing value, and passes
an all-missing `Attendance` column through as entirely missing without error — but an
empty-string `Attendance` cell is not turned into a missing value: the float
conversion raises a `ValueError` on it (empty cells never reach the coercer in the
pipeline because row assembly drops empty cell texts). -/
theorem c6_attendance_coercion (f : Frame) (att : List Value)
    (hatt : getCol f "Attendance" = .ok att) (hr : f.rect = true) :
    (strReplaceComma (.str "39,662") = .str "39662" ∧
      astypeFloatCell (.str "39662") = .ok (.num 39662) ∧
      replaceUnknown (.str "Unknown") = .na ∧
      astypeFloatCell Value.na = .ok Value.na ∧
      astypeFloatCell (.str "") =
        .error (.valueError "could not convert string to float: ")) ∧
    (att.all Value.isNA = true →
      ∃ g, make_numeric f =
          astypeFloatCols g ["R", "RA", "Inn", "Rank", "Attendance"] ∧
        getCol g "Attendance" = .ok (att.map (fun _ => Value.na)) ∧
        eMapM astypeFloatCell (att.map (fun _ => Value.na)) =
          .ok (att.map (fun _ => Value.na))) := by
  refine ⟨by decide, ?_⟩
  intro hall
  have hcl : att.length = f.rows.length := getCol_length f "Attendance" att hatt
  unfold make_numeric
  rw [hatt, except_bind_ok, if_neg]
  swap
  · rw [filter_notNA_nil att hall]
    simp
  simp only []
  have hr1 : (setColVals f "Attendance" (att.map (fun _ => Value.na))).rect = true :=
    rect_setColVals f "Attendance" _ hr
  have hlen1 : (att.map (fun _ => Value.na)).length =
      (setColVals f "Attendance" (att.map (fun _ => Value.na))).rows.length := by
    rw [setColVals_rows_length]
    simp [hcl]
  have hg1 : getCol (setColVals f "Attendance" (att.map (fun _ => Value.na)))
      "Attendance" = .ok (att.map (fun _ => Value.na)) :=
    getCol_setColVals_self f "Attendance" _ hr (by simp [hcl])
  rw [hg1, except_bind_ok]
  refine ⟨setColVals (setColVals f "Attendance" (att.map (fun _ => Value.na)))
    "Attendance" ((att.map (fun _ => Value.na)).map replaceUnknown), rfl, ?_, ?_⟩
  · have hmapru : (att.map (fun _ => Value.na)).map replaceUnknown =
        att.map (fun _ => Value.na) := by
      simp only [List.map_map]
      rfl
    rw [hmapru]
    exact getCol_setColVals_self _ "Attendance" _ hr1 (by rw [hlen1])
  · exact eMapM_astype_na att

/-- Closed instance of C6 (amended): a one-row frame with missing attendance passes
the coercer with the column entirely missing. -/
theorem c6_witness :
    (strReplaceComma (.str "39,662") = .str "39662" ∧
      astypeFloatCell (.str "39662") = .ok (.num 39662) ∧
      replaceUnknown (.str "Unknown") = .na ∧
      astypeFloatCell Value.na = .ok Value.na ∧
      astypeFloatCell (.str "") =
        .error (.valueError "could not convert string to float: ")) ∧
    ([Value.na].all Value.isNA = true →
      ∃ g, make_numeric naAttFrame =
          astypeFloatCols g ["R", "RA", "Inn", "Rank", "Attendance"] ∧
        getCol g "Attendance" = .ok ([Value.na].map (fun _ => Value.na)) ∧
        eMapM astypeFloatCell ([Value.na].map (fun _ => Value.na)) =
          .ok ([Value.na].map (fun _ => Value.na))) :=
  c6_attendance_coercion naAttFrame [Value.na] (by decide) (by decide)

/-- Counterexample to C6 as stated: an empty-string `Attendance` cell does not coerce
to missing — `_make_numeric` raises a `ValueError` on it. -/
theorem c6_counterexample :
    make_numeric emptyAttFrame =
      .error (.valueError "could not convert string to float: ") := by
  decide

/-- Closed instance of C10: with 2023 cached from an NYY scrape, switching to team
"bos" and scraping fetches nothing and reuses the NYY page. -/
theorem c10_witness :
    (scrape (fun _ _ => noTablePage) 2023 (set_team cachedState "bos")).2.2 = 0 ∧
    (scrape (fun _ _ => noTablePage) 2023 (set_team cachedState "bos")).1 =
      runPipeline (pyUpper "bos") (Date.year ⟨2023, 4, 1⟩) samplePage
        ⟨2023, 4, 1⟩ ⟨2023, 4, 30⟩ ∧
    (∀ tA tB : String, ∀ r : List String, r.getD 1 "" ≠ "" →
      parse_row tA r = parse_row tB r) :=
  c10_cache_keyed_by_year (fun _ _ => noTablePage) 2023 cachedState
    ⟨2023, 4, 1⟩ ⟨2023, 4, 30⟩ "bos" samplePage rfl rfl rfl (by decide)

end BaseballScraper
